import Mathlib

/-!
Verification of the WALKOFF app-action cache subsystem (`apps` package).

The file embeds two layers of the repository:

* the `AppCache` registry wrapped by `apps/__init__.py` (`get_app`,
  `get_app_action`, `get_condition`, `get_transform`, the `*_names`
  queries, `cache_apps`, `clear_cache`, `is_app_action_bound`).  The
  `AppCache` class itself lives in `apps/appcache.py`, which is not part
  of the excerpted sources; its behaviour is modelled from the
  specification's description of the registry (section 3 "DATA MODEL"
  and section 4.1 "AppActionCache").
* the `App` base class of `apps/__init__.py` (`App.__init__`,
  `App.get_all_devices`), translated directly from the source, with the
  device database collaborator (`apps.devicedb`) abstracted as a
  function parameter.
-/

set_option autoImplicit false

namespace Walkoff

/-- Modelled from the spec: a capability descriptor
(ActionDescriptor / ConditionDescriptor / TransformDescriptor), holding
the callable name, the callable itself (represented by an opaque numeric
identifier), and the boolean "bound" flag that is true when the callable
must be invoked on an instance of the app's class rather than as a free
function. -/
structure CapabilityDesc where
  name : String
  callable : Nat
  bound : Bool
deriving DecidableEq, Repr

/-- Modelled from the spec: the cached record of one app, holding the
app's qualifying class (if the plugin defined one; an app with only
globally-scoped actions has none) and the ordered-by-discovery lists of
action, condition and transform descriptors. -/
structure AppEntry where
  cls : Option Nat
  actions : List CapabilityDesc
  conditions : List CapabilityDesc
  transforms : List CapabilityDesc
deriving DecidableEq, Repr

/-- Modelled from the spec: the process-wide registry state of
`AppCache` (`apps/appcache.py`, absent from the excerpt): an ordered
association of app names to their cached entries. -/
def AppCache : Type := List (String × AppEntry)

/-- Modelled from the spec: the error taxonomy of the cache.
`UnknownApp` for an app name never indexed (or with no qualifying
class), and `UnknownAppAction` / `UnknownCondition` / `UnknownTransform`
for an app that is known but lacks the named capability of that kind. -/
inductive CacheError where
  | UnknownApp (app : String)
  | UnknownAppAction (app action : String)
  | UnknownCondition (app condition : String)
  | UnknownTransform (app transform : String)
deriving DecidableEq, Repr

/-- Case-sensitive exact-name lookup of an app's cached entry. -/
def lookupApp : AppCache → String → Option AppEntry
  | [], _ => none
  | p :: rest, n => if p.fst == n then some p.snd else lookupApp rest n

/-- Case-sensitive exact-name lookup of a capability descriptor in one
kind's descriptor list. -/
def findCap (l : List CapabilityDesc) (n : String) : Option CapabilityDesc :=
  l.find? (fun d => d.name == n)

/-- Modelled from the spec: `AppCache.get_app` (wrapped by `get_app` in
`apps/__init__.py`).  Returns the app's class; fails with `UnknownApp`
if the name was never cached or the app has no qualifying class. -/
def getApp (c : AppCache) (n : String) : Except CacheError Nat :=
  match lookupApp c n with
  | none => .error (.UnknownApp n)
  | some e =>
    match e.cls with
    | none => .error (.UnknownApp n)
    | some k => .ok k

/-- Modelled from the spec: `AppCache.get_app_action` (wrapped by
`get_app_action`).  Returns the cached callable; `UnknownApp` if the app
is absent, `UnknownAppAction` if the app exists but lacks the action. -/
def getAppAction (c : AppCache) (a n : String) : Except CacheError Nat :=
  match lookupApp c a with
  | none => .error (.UnknownApp a)
  | some e =>
    match findCap e.actions n with
    | none => .error (.UnknownAppAction a n)
    | some d => .ok d.callable

/-- Modelled from the spec: `AppCache.get_app_condition` (wrapped by
`get_condition`).  Returns the cached callable; `UnknownApp` if the app
is absent, `UnknownCondition` if the app exists but lacks it. -/
def getAppCondition (c : AppCache) (a n : String) : Except CacheError Nat :=
  match lookupApp c a with
  | none => .error (.UnknownApp a)
  | some e =>
    match findCap e.conditions n with
    | none => .error (.UnknownCondition a n)
    | some d => .ok d.callable

/-- Modelled from the spec: `AppCache.get_app_transform` (wrapped by
`get_transform`).  Returns the cached callable; `UnknownApp` if the app
is absent, `UnknownTransform` if the app exists but lacks it. -/
def getAppTransform (c : AppCache) (a n : String) : Except CacheError Nat :=
  match lookupApp c a with
  | none => .error (.UnknownApp a)
  | some e =>
    match findCap e.transforms n with
    | none => .error (.UnknownTransform a n)
    | some d => .ok d.callable

/-- Modelled from the spec: `AppCache.get_app_action_names` (wrapped by
`get_all_actions_for_app`).  Ordered-by-discovery action names;
`UnknownApp` if the app is absent; the empty list if it has none. -/
def getAppActionNames (c : AppCache) (a : String) : Except CacheError (List String) :=
  match lookupApp c a with
  | none => .error (.UnknownApp a)
  | some e => .ok (e.actions.map CapabilityDesc.name)

/-- Modelled from the spec: `AppCache.get_app_condition_names` (wrapped
by `get_all_conditions_for_app`). -/
def getAppConditionNames (c : AppCache) (a : String) : Except CacheError (List String) :=
  match lookupApp c a with
  | none => .error (.UnknownApp a)
  | some e => .ok (e.conditions.map CapabilityDesc.name)

/-- Modelled from the spec: `AppCache.get_app_transform_names` (wrapped
by `get_all_transforms_for_app`). -/
def getAppTransformNames (c : AppCache) (a : String) : Except CacheError (List String) :=
  match lookupApp c a with
  | none => .error (.UnknownApp a)
  | some e => .ok (e.transforms.map CapabilityDesc.name)

/-- Modelled from the spec: `AppCache.is_app_action_bound` (wrapped by
`is_app_action_bound`).  Returns the action's "bound" flag, with the
same failure modes as the action lookup. -/
def isAppActionBound (c : AppCache) (a n : String) : Except CacheError Bool :=
  match lookupApp c a with
  | none => .error (.UnknownApp a)
  | some e =>
    match findCap e.actions n with
    | none => .error (.UnknownAppAction a n)
    | some d => .ok d.bound

/-- Modelled from the spec: `AppCache.clear` (wrapped by
`clear_cache`): resets the registry to the empty state. -/
def clearCache (_ : AppCache) : AppCache := []

/-- Modelled from the spec: one plugin package found under the scan
path: either a plugin whose import raises, or a valid plugin defining
one app with its discovered entry. -/
inductive Plugin where
  | broken
  | valid (name : String) (entry : AppEntry)
deriving DecidableEq, Repr

/-- Insert-or-replace of one app's descriptor set in the registry:
re-caching an existing app replaces its entry in place; a new app is
appended in discovery order. -/
def cacheUpdate : AppCache → String → AppEntry → AppCache
  | [], n, e => [(n, e)]
  | p :: rest, n, e =>
    if p.fst == n then (n, e) :: rest else p :: cacheUpdate rest n e

/-- Processing of one scanned plugin: a plugin whose import raises is
logged and skipped, leaving the registry untouched; a valid plugin's
app entry is committed with insert-or-replace semantics. -/
def cacheStep (c : AppCache) : Plugin → AppCache
  | .broken => c
  | .valid n e => cacheUpdate c n e

/-- Modelled from the spec: `AppCache.cache_apps` (wrapped by
`cache_apps`), with the filesystem path abstracted as the ordered list
of plugin packages the scan discovers under it. -/
def cacheApps (c : AppCache) (ps : List Plugin) : AppCache :=
  ps.foldl cacheStep c

/-- The last valid plugin for a given app name in a scan, if any:
the entry that survives in the registry after the scan commits. -/
def lastValid : List Plugin → String → Option AppEntry
  | [], _ => none
  | .broken :: rest, n => lastValid rest n
  | .valid m e :: rest, n =>
    match lastValid rest n with
    | some e' => some e'
    | none => if m == n then some e else none

/-- Demo capability: an instance-level ("bound") action named "bar". -/
def barAction : CapabilityDesc := { name := "bar", callable := 1, bound := true }

/-- Demo capability: a free-function ("unbound") action named "free". -/
def freeAction : CapabilityDesc := { name := "free", callable := 2, bound := false }

/-- Demo app entry for an app "Foo" with two actions and no conditions
or transforms. -/
def fooEntry : AppEntry :=
  { cls := some 10, actions := [barAction, freeAction], conditions := [], transforms := [] }

/-- Demo registry holding only the app "Foo". -/
def demoCache : AppCache := [("Foo", fooEntry)]

/-- A configured device record of the device database: the ORM
collaborator `apps.devicedb.Device` of `App.__init__`, abstracted to
its two observed members, `get_plaintext_fields()` and `type`. -/
structure Device where
  plaintext_fields : List (String × String)
  type : String

/-- The ORM app record of the device database: the collaborator
`apps.devicedb.App`, abstracted to its observed members: the `devices`
collection and the `get_device(id)` query. -/
structure DBApp where
  devices : List Device
  getDevice : Int → Option Device

/-- The device database lookup `apps.devicedb.get_app` (imported as
`get_db_app` in `apps/__init__.py`), abstracted as a function from app
names to an optional ORM record. -/
def DeviceDB : Type := String → Option DBApp

/-- The state of a constructed `apps.App` object: the attributes
`App.__init__` assigns (`self.app`, `self.device`, `self.device_fields`,
`self.device_type`, `self.device_id`). -/
structure AppObj where
  app : Option DBApp
  device : Option Device
  device_fields : List (String × String)
  device_type : Option String
  device_id : Option Int

/-- Python truthiness of the `device` argument of `App.__init__`
(an optional integer ID): `None` and `0` are falsy. -/
def truthy : Option Int → Bool
  | none => false
  | some k => k != 0

/-- Translation of line 28 of `apps/__init__.py`: `self.device =
self.app.get_device(device) if (self.app is not None and device) else
None` — the query runs only when the ORM record exists and the device
argument is truthy. -/
def App.initDevice (app : Option DBApp) (deviceArg : Option Int) : Option Device :=
  match app, deviceArg with
  | some a, some d => if d == 0 then none else a.getDevice d
  | _, _ => none

/-- Translation of `App.__init__` (`apps/__init__.py` lines 26-35):
`self.app = get_db_app(app)`; `self.device` as computed by
`App.initDevice`; the fields and type come from the device when one was
found, else `{}` and `None`; `self.device_id` is the argument as
passed. -/
def App.init (db : DeviceDB) (appName : String) (deviceArg : Option Int) : AppObj :=
  let app := db appName
  match App.initDevice app deviceArg with
  | some dev =>
    { app := app, device := some dev, device_fields := dev.plaintext_fields,
      device_type := some dev.type, device_id := deviceArg }
  | none =>
    { app := app, device := none, device_fields := [],
      device_type := none, device_id := deviceArg }

/-- Translation of `App.get_all_devices` (`apps/__init__.py` lines
37-43): `list(self.app.devices) if self.app is not None else []`. -/
def AppObj.get_all_devices (a : AppObj) : List Device :=
  match a.app with
  | some record => record.devices
  | none => []

/-- Demo device for the `App` class theorems. -/
def demoDevice : Device := { plaintext_fields := [("user", "u")], type := "router" }

/-- Demo ORM app record holding one device. -/
def demoDBApp : DBApp := { devices := [demoDevice], getDevice := fun _ => some demoDevice }

/-- Demo device database knowing only the app "Foo". -/
def demoDB : DeviceDB := fun n => if n == "Foo" then some demoDBApp else none

/-- Demo constructed `App` object whose ORM record is present. -/
def demoAppObj : AppObj := App.init demoDB "Foo" (some 1)

/-- Demo constructed `App` object whose ORM record is absent. -/
def demoAppObjNone : AppObj := App.init demoDB "Bar" (some 1)

/-- C1: `get_app_action(A, N)` returns the cached callable when app `A`
is cached and has an action named `N`; it fails with `UnknownApp` when
`A` is absent from the cache, and fails with `UnknownAppAction` when `A`
is cached but has no action named `N`. -/
theorem getAppAction_cases (c : AppCache) (a n : String) :
    (lookupApp c a = none →
      getAppAction c a n = .error (.UnknownApp a)) ∧
    (∀ e, lookupApp c a = some e →
      (findCap e.actions n = none →
        getAppAction c a n = .error (.UnknownAppAction a n)) ∧
      (∀ d, findCap e.actions n = some d →
        getAppAction c a n = .ok d.callable)) := by
  refine ⟨fun h => ?_, fun e he => ⟨fun h => ?_, fun d hd => ?_⟩⟩
  · simp [getAppAction, h]
  · simp [getAppAction, he, h]
  · simp [getAppAction, he, hd]

/-- C1 witness: on the demo registry, the action "bar" of app "Foo" is
returned, a missing action fails with `UnknownAppAction`, and an unknown
app fails with `UnknownApp`. -/
theorem getAppAction_cases_witness :
    getAppAction demoCache "Foo" "bar" = .ok 1 ∧
    getAppAction demoCache "Foo" "baz" = .error (.UnknownAppAction "Foo" "baz") ∧
    getAppAction demoCache "Qux" "bar" = .error (.UnknownApp "Qux") := by
  refine ⟨?_, ?_, ?_⟩
  · exact ((getAppAction_cases demoCache "Foo" "bar").2 fooEntry rfl).2 barAction rfl
  · exact ((getAppAction_cases demoCache "Foo" "baz").2 fooEntry rfl).1 rfl
  · exact (getAppAction_cases demoCache "Qux" "bar").1 rfl

/-- C2: `get_app(A)` returns the app's class when `A` has been cached
with a qualifying app class, and fails with `UnknownApp` when `A` was
never cached or when it was cached without a qualifying class (an app
exposing only globally-scoped actions and no class counts as absent). -/
theorem getApp_cases (c : AppCache) (n : String) :
    (lookupApp c n = none →
      getApp c n = .error (.UnknownApp n)) ∧
    (∀ e, lookupApp c n = some e →
      (e.cls = none → getApp c n = .error (.UnknownApp n)) ∧
      (∀ k, e.cls = some k → getApp c n = .ok k)) := by
  refine ⟨fun h => ?_, fun e he => ⟨fun h => ?_, fun k hk => ?_⟩⟩
  · simp [getApp, h]
  · simp [getApp, he, h]
  · simp [getApp, he, hk]

/-- C2 witness: on the demo registry, "Foo" yields its class and an app
never cached fails with `UnknownApp`. -/
theorem getApp_cases_witness :
    getApp demoCache "Foo" = .ok 10 ∧
    getApp demoCache "Qux" = .error (.UnknownApp "Qux") := by
  refine ⟨?_, ?_⟩
  · exact ((getApp_cases demoCache "Foo").2 fooEntry rfl).2 10 rfl
  · exact (getApp_cases demoCache "Qux").1 rfl

/-- C3: for every cached app the names queries return the list of
capability names of that kind in discovery order (the empty list, not an
error, when the app has none of that kind), and for an absent app each
names query fails with `UnknownApp`; a names query on a cached app never
fails at all, in particular never with `UnknownApp` merely because the
app lacks that kind. -/
theorem nameQueries_cases (c : AppCache) (a : String) :
    (lookupApp c a = none →
      getAppActionNames c a = .error (.UnknownApp a) ∧
      getAppConditionNames c a = .error (.UnknownApp a) ∧
      getAppTransformNames c a = .error (.UnknownApp a)) ∧
    (∀ e, lookupApp c a = some e →
      getAppActionNames c a = .ok (e.actions.map CapabilityDesc.name) ∧
      getAppConditionNames c a = .ok (e.conditions.map CapabilityDesc.name) ∧
      getAppTransformNames c a = .ok (e.transforms.map CapabilityDesc.name) ∧
      (e.conditions = [] → getAppConditionNames c a = .ok []) ∧
      (e.transforms = [] → getAppTransformNames c a = .ok []) ∧
      ∀ err : CacheError, getAppActionNames c a ≠ .error err ∧
        getAppConditionNames c a ≠ .error err ∧
        getAppTransformNames c a ≠ .error err) := by
  refine ⟨fun h => ?_, fun e he => ?_⟩
  · simp [getAppActionNames, getAppConditionNames, getAppTransformNames, h]
  · refine ⟨?_, ?_, ?_, fun hc => ?_, fun ht => ?_, fun err => ?_⟩
    · simp [getAppActionNames, he]
    · simp [getAppConditionNames, he]
    · simp [getAppTransformNames, he]
    · simp [getAppConditionNames, he, hc]
    · simp [getAppTransformNames, he, ht]
    · simp [getAppActionNames, getAppConditionNames, getAppTransformNames, he]

/-- C3 witness: the app "Foo" has actions `["bar", "free"]` and empty
condition and transform name lists, while an absent app fails with
`UnknownApp` on each names query. -/
theorem nameQueries_cases_witness :
    getAppActionNames demoCache "Foo" = .ok ["bar", "free"] ∧
    getAppConditionNames demoCache "Foo" = .ok [] ∧
    getAppTransformNames demoCache "Foo" = .ok [] ∧
    getAppActionNames demoCache "Qux" = .error (.UnknownApp "Qux") := by
  refine ⟨?_, ?_, ?_, ?_⟩
  · exact ((nameQueries_cases demoCache "Foo").2 fooEntry rfl).1
  · exact (((nameQueries_cases demoCache "Foo").2 fooEntry rfl).2).2.2.1 rfl
  · exact (((nameQueries_cases demoCache "Foo").2 fooEntry rfl).2).2.2.2.1 rfl
  · exact ((nameQueries_cases demoCache "Qux").1 rfl).1

/-- Lookup after an insert-or-replace: the updated name maps to the new
entry and every other name is untouched. -/
theorem lookup_cacheUpdate (c : AppCache) (m : String) (e : AppEntry) (n : String) :
    lookupApp (cacheUpdate c m e) n = if m == n then some e else lookupApp c n := by
  induction c with
  | nil => simp [cacheUpdate, lookupApp]
  | cons p rest ih =>
    cases hp : p.fst == m with
    | true =>
      cases hmn : m == n with
      | true => simp [cacheUpdate, lookupApp, hp, hmn]
      | false =>
        have hpn : (p.fst == n) = false := by
          rw [beq_iff_eq] at hp
          rw [beq_eq_false_iff_ne] at hmn ⊢
          rw [hp]; exact hmn
        simp [cacheUpdate, lookupApp, hp, hmn, hpn]
    | false =>
      cases hn : p.fst == n with
      | true =>
        have hmn : (m == n) = false := by
          rw [beq_iff_eq] at hn
          rw [beq_eq_false_iff_ne] at hp ⊢
          intro hc
          exact hp (hn.trans hc.symm)
        simp [cacheUpdate, lookupApp, hp, hn, hmn]
      | false => simp [cacheUpdate, lookupApp, hp, hn, ih]

/-- Lookup after a scan: the last valid plugin for a name wins, and a
name no valid plugin defines keeps its pre-scan entry. -/
theorem lookup_cacheApps (ps : List Plugin) (c : AppCache) (n : String) :
    lookupApp (cacheApps c ps) n =
      match lastValid ps n with
      | some e => some e
      | none => lookupApp c n := by
  induction ps generalizing c with
  | nil => simp [cacheApps, lastValid]
  | cons p rest ih =>
    cases p with
    | broken =>
      simpa [cacheApps, cacheStep, lastValid] using ih c
    | valid m e =>
      have hstep : cacheApps c (Plugin.valid m e :: rest) =
          cacheApps (cacheUpdate c m e) rest := rfl
      rw [hstep, ih (cacheUpdate c m e)]
      simp only [lastValid]
      cases hl : lastValid rest n with
      | some e' => simp
      | none =>
        by_cases hmn : m = n <;> simp [lookup_cacheUpdate, hmn, beq_iff_eq]

/-- C4: `cache_apps` is idempotent with respect to re-scanning the same
path: after scanning the same plugin list twice in succession, every
app-name lookup — and hence every names query — gives the same result
as after a single scan; re-caching replaces rather than duplicates an
app's descriptor set. -/
theorem cacheApps_idempotent (c : AppCache) (ps : List Plugin) (n : String) :
    lookupApp (cacheApps (cacheApps c ps) ps) n = lookupApp (cacheApps c ps) n ∧
    getAppActionNames (cacheApps (cacheApps c ps) ps) n =
      getAppActionNames (cacheApps c ps) n ∧
    getAppConditionNames (cacheApps (cacheApps c ps) ps) n =
      getAppConditionNames (cacheApps c ps) n ∧
    getAppTransformNames (cacheApps (cacheApps c ps) ps) n =
      getAppTransformNames (cacheApps c ps) n := by
  have hlook : lookupApp (cacheApps (cacheApps c ps) ps) n =
      lookupApp (cacheApps c ps) n := by
    rw [lookup_cacheApps ps (cacheApps c ps) n, lookup_cacheApps ps c n]
    cases hl : lastValid ps n with
    | some e => simp
    | none => simp [lookup_cacheApps ps c n, hl]
  refine ⟨hlook, ?_, ?_, ?_⟩ <;>
    simp only [getAppActionNames, getAppConditionNames, getAppTransformNames, hlook]

/-- C5: `clear_cache()` fully resets the registry to the empty state:
whatever the registry held, after a clear every lookup for every app
name fails with `UnknownApp`; no cached entity survives. -/
theorem clearCache_resets (c : AppCache) (n m : String) :
    clearCache c = ([] : AppCache) ∧
    getApp (clearCache c) n = .error (.UnknownApp n) ∧
    getAppAction (clearCache c) n m = .error (.UnknownApp n) ∧
    getAppCondition (clearCache c) n m = .error (.UnknownApp n) ∧
    getAppTransform (clearCache c) n m = .error (.UnknownApp n) ∧
    getAppActionNames (clearCache c) n = .error (.UnknownApp n) ∧
    getAppConditionNames (clearCache c) n = .error (.UnknownApp n) ∧
    getAppTransformNames (clearCache c) n = .error (.UnknownApp n) ∧
    isAppActionBound (clearCache c) n m = .error (.UnknownApp n) := by
  refine ⟨rfl, ?_, ?_, ?_, ?_, ?_, ?_, ?_, ?_⟩ <;>
    simp [clearCache, getApp, getAppAction, getAppCondition, getAppTransform,
      getAppActionNames, getAppConditionNames, getAppTransformNames,
      isAppActionBound, lookupApp, List.find?]

/-- C6: a plugin whose import raises is skipped during a scan: the
registry after scanning a path containing the broken plugin is exactly
the registry after scanning the same path without it, so the scan never
fails as a whole and every other valid plugin is still cached and
queryable. -/
theorem cacheApps_skips_broken (c : AppCache) (ps1 ps2 : List Plugin) (n : String) :
    cacheApps c (ps1 ++ Plugin.broken :: ps2) = cacheApps c (ps1 ++ ps2) ∧
    lookupApp (cacheApps c (ps1 ++ Plugin.broken :: ps2)) n =
      lookupApp (cacheApps c (ps1 ++ ps2)) n ∧
    getAppAction (cacheApps c (ps1 ++ Plugin.broken :: ps2)) n =
      getAppAction (cacheApps c (ps1 ++ ps2)) n := by
  have h : cacheApps c (ps1 ++ Plugin.broken :: ps2) = cacheApps c (ps1 ++ ps2) := by
    simp [cacheApps, List.foldl_append, cacheStep]
  exact ⟨h, by rw [h], by rw [h]⟩

/-- C7: `is_app_action_bound(A, N)` returns the action's "bound" flag —
true exactly when `N` is declared as an instance-level (class-bound)
capability, false for a free-function capability — and its failure
modes are identical to `get_app_action`: it fails with an error `err`
exactly when `get_app_action` fails with that same `err`. -/
theorem isAppActionBound_spec (c : AppCache) (a n : String) :
    (∀ err : CacheError,
      isAppActionBound c a n = .error err ↔ getAppAction c a n = .error err) ∧
    (∀ e d, lookupApp c a = some e → findCap e.actions n = some d →
      isAppActionBound c a n = .ok d.bound) := by
  constructor
  · intro err
    unfold isAppActionBound getAppAction
    cases h : lookupApp c a with
    | none => simp
    | some e =>
      cases hd : findCap e.actions n with
      | none => simp [hd]
      | some d => simp [hd]
  · intro e d he hd
    simp [isAppActionBound, he, hd]

/-- C7 witness: "bar" is a bound action and "free" an unbound one of the
demo app "Foo"; a missing action fails identically for both lookups. -/
theorem isAppActionBound_spec_witness :
    isAppActionBound demoCache "Foo" "bar" = .ok true ∧
    isAppActionBound demoCache "Foo" "free" = .ok false ∧
    (isAppActionBound demoCache "Foo" "baz" =
        .error (.UnknownAppAction "Foo" "baz") ↔ getAppAction demoCache "Foo" "baz" =
        .error (.UnknownAppAction "Foo" "baz")) := by
  refine ⟨?_, ?_, ?_⟩
  · exact (isAppActionBound_spec demoCache "Foo" "bar").2 fooEntry barAction rfl rfl
  · exact (isAppActionBound_spec demoCache "Foo" "free").2 fooEntry freeAction rfl rfl
  · exact (isAppActionBound_spec demoCache "Foo" "baz").1
      (.UnknownAppAction "Foo" "baz")

/-- C8: for a cached app lacking a transform named `N`, `get_transform`
fails with the error kind `UnknownTransform`, which is distinguishable
from `UnknownCondition` (and from every other error kind) to the
caller. -/
theorem getAppTransform_unknown_kind (c : AppCache) (a n : String) (e : AppEntry)
    (h1 : lookupApp c a = some e) (h2 : findCap e.transforms n = none) :
    getAppTransform c a n = .error (.UnknownTransform a n) ∧
    (∀ x y : String,
      CacheError.UnknownTransform x y ≠ CacheError.UnknownCondition x y) ∧
    (∀ x y : String, CacheError.UnknownTransform x y ≠ CacheError.UnknownApp x) ∧
    (∀ x y : String,
      CacheError.UnknownTransform x y ≠ CacheError.UnknownAppAction x y) := by
  refine ⟨?_, ?_, ?_, ?_⟩
  · simp [getAppTransform, h1, h2]
  · intro x y hc
    cases hc
  · intro x y hc
    cases hc
  · intro x y hc
    cases hc

/-- C8 witness: the demo app "Foo" has no transform "t", and the error
returned is of the `UnknownTransform` kind. -/
theorem getAppTransform_unknown_kind_witness :
    getAppTransform demoCache "Foo" "t" = .error (.UnknownTransform "Foo" "t") ∧
    CacheError.UnknownTransform "Foo" "t" ≠ CacheError.UnknownCondition "Foo" "t" := by
  have h := getAppTransform_unknown_kind demoCache "Foo" "t" fooEntry rfl rfl
  exact ⟨h.1, h.2.1 "Foo" "t"⟩

/-- C9: constructing `App(app, device)` never dereferences the device
when the app name is unknown to the device database or when the device
argument is falsy (`None` or `0`): in every such case the constructed
object has `device = None`, `device_fields = {}` and
`device_type = None`, while `device_id` is always set to the device
argument as passed. -/
theorem App_init_safe (db : DeviceDB) (appName : String) (d : Option Int) :
    (App.init db appName d).device_id = d ∧
    (db appName = none ∨ truthy d = false →
      (App.init db appName d).device = none ∧
      (App.init db appName d).device_fields = [] ∧
      (App.init db appName d).device_type = none) := by
  have hnone : db appName = none ∨ truthy d = false →
      App.initDevice (db appName) d = none := by
    rintro (h | h)
    · cases d <;> simp [App.initDevice, h]
    · cases d with
      | none => cases db appName <;> simp [App.initDevice]
      | some k =>
        have hk : k = 0 := by simpa [truthy] using h
        cases db appName <;> simp [App.initDevice, hk]
  constructor
  · cases hdev : App.initDevice (db appName) d <;> simp [App.init, hdev]
  · intro h
    simp [App.init, hnone h]

/-- C9 witness: an unknown app name and a zero device ID each yield a
device-less object, and the device ID is stored as passed. -/
theorem App_init_safe_witness :
    (App.init demoDB "Bar" (some 1)).device = none ∧
    (App.init demoDB "Foo" (some 0)).device_fields = [] ∧
    (App.init demoDB "Foo" (some 0)).device_type = none ∧
    (App.init demoDB "Foo" (some 0)).device_id = some 0 := by
  refine ⟨?_, ?_, ?_, ?_⟩
  · exact ((App_init_safe demoDB "Bar" (some 1)).2 (Or.inl rfl)).1
  · exact ((App_init_safe demoDB "Foo" (some 0)).2 (Or.inr (by decide))).2.1
  · exact ((App_init_safe demoDB "Foo" (some 0)).2 (Or.inr (by decide))).2.2
  · exact (App_init_safe demoDB "Foo" (some 0)).1

/-- C10: `get_all_devices()` returns the empty list rather than failing
when the underlying ORM app record is absent (`self.app is None`), and
returns the record's device list when it is present. -/
theorem get_all_devices_safe (a : AppObj) :
    (a.app = none → a.get_all_devices = []) ∧
    (∀ r, a.app = some r → a.get_all_devices = r.devices) := by
  constructor
  · intro h
    simp [AppObj.get_all_devices, h]
  · intro r h
    simp [AppObj.get_all_devices, h]

/-- C10 witness: the demo object with a missing record yields `[]`, the
one with a present record yields that record's devices. -/
theorem get_all_devices_safe_witness :
    demoAppObjNone.get_all_devices = [] ∧
    demoAppObj.get_all_devices = [demoDevice] := by
  constructor
  · exact (get_all_devices_safe demoAppObjNone).1 rfl
  · exact (get_all_devices_safe demoAppObj).2 demoDBApp rfl

end Walkoff
